import Mathlib

/-!
# esox: flash cookies, page rendering, security headers and route registration

A shallow embedding of `esox/render.go` and `esox/app.go`.

* Stateful Go code is written in state-passing style: a function that mutates
  the `http.ResponseWriter` or the `*http.Request` it is given returns the new
  writer and the new request.
* `http.ResponseWriter` is an interface, so a writer is modelled by the header
  map it exposes together with the ordered record of the calls made through it.
* `time.Now()` is an explicit argument `now`.
* A Go panic is the `Except.error` result.
-/

namespace Esox

/-! ## Standard-library vocabulary used by the source -/

/-- Instants and durations, in nanoseconds (`time.Time`, `time.Duration`). -/
abbrev Time := Int

/-- The constant `time.Hour`. -/
def time.Hour : Int := 3600000000000

/-- The byte contents of a `bytes.Buffer` or of a body write. -/
abbrev Bytes := List Nat

/-- The type `http.SameSite`; `unset` is the zero value. -/
inductive SameSite where
  | unset
  | SameSiteDefaultMode
  | SameSiteLaxMode
  | SameSiteStrictMode
  | SameSiteNoneMode
deriving DecidableEq, Repr

/-- The fields of `http.Cookie`; every default is the Go zero value, so a
structure instance reads like the composite literal in the source.
`Expires = none` is the zero `time.Time`, `MaxAge = 0` means no Max-Age. -/
structure Cookie where
  Name : String := ""
  Value : String := ""
  Path : String := ""
  Domain : String := ""
  Expires : Option Time := none
  MaxAge : Int := 0
  Secure : Bool := false
  HttpOnly : Bool := false
  SameSite : SameSite := SameSite.unset
deriving DecidableEq, Repr

/-- The constant `http.StatusInternalServerError`. -/
def http.StatusInternalServerError : Int := 500

/-- The map type `http.Header`: the values stored under a key, `[]` when the key
is missing. -/
abbrev Header := String → List String

/-- The method `Header.Set` for a key already in canonical form (all keys the
source uses are): the key now holds exactly the one value. -/
def Header.Set (h : Header) (key value : String) : Header :=
  fun k => if k = key then [value] else h k

/-- One call made through an `http.ResponseWriter`, directly or by a
standard-library helper that receives the writer. -/
inductive Call where
  /-- The call `w.Header().Set(key, value)`. -/
  | headerSet (key value : String)
  /-- The call `http.SetCookie(w, c)` (one more `Set-Cookie` line). -/
  | setCookie (c : Cookie)
  /-- The call `w.WriteHeader(code)`. -/
  | writeHeader (code : Int)
  /-- The call `w.Write(p)`. -/
  | write (p : Bytes)
  /-- The call `http.Error(w, error, code)`. -/
  | httpError (error : String) (code : Int)
  /-- The call `http.Redirect(w, r, url, code)`. -/
  | httpRedirect (url : String) (code : Int)
deriving DecidableEq, Repr

/-- An `http.ResponseWriter`: the header map `w.Header()` returns (its
`Set-Cookie` lines are kept as structured cookies in `calls`), the calls
received so far, oldest first, and the error its `Write` method returns
(`none` when the connection accepts the bytes). -/
structure ResponseWriter where
  header : Header
  calls : List Call := []
  writeErr : Option String := none

/-- The statement `w.Header().Set(key, value)`. -/
def ResponseWriter.HeaderSet (w : ResponseWriter) (key value : String) : ResponseWriter :=
  { w with header := w.header.Set key value, calls := w.calls ++ [Call.headerSet key value] }

/-- The statement `w.WriteHeader(code)`. -/
def ResponseWriter.WriteHeader (w : ResponseWriter) (code : Int) : ResponseWriter :=
  { w with calls := w.calls ++ [Call.writeHeader code] }

/-- The statement `http.SetCookie(w, c)`. -/
def http.SetCookie (w : ResponseWriter) (c : Cookie) : ResponseWriter :=
  { w with calls := w.calls ++ [Call.setCookie c] }

/-- The statement `http.Error(w, error, code)`, recorded as one call: the status line, the
plain-text headers and the body line the helper writes are the library's own. -/
def http.Error (w : ResponseWriter) (error : String) (code : Int) : ResponseWriter :=
  { w with calls := w.calls ++ [Call.httpError error code] }

/-- The statement `http.Redirect(w, r, url, code)`, recorded as one call. -/
def http.Redirect (w : ResponseWriter) (url : String) (code : Int) : ResponseWriter :=
  { w with calls := w.calls ++ [Call.httpRedirect url code] }

/-- The method `(*bytes.Buffer).WriteTo(w)`: a non-empty buffer is handed to
`w.Write` in one call, whose error is returned; an empty buffer makes no call. -/
def WriteTo (buf : Bytes) (w : ResponseWriter) : ResponseWriter × Option String :=
  if buf = [] then (w, none)
  else ({ w with calls := w.calls ++ [Call.write buf] }, w.writeErr)

/-- The cookies added to a response, in order. -/
def cookiesOf : List Call → List Cookie
  | [] => []
  | Call.setCookie c :: rest => c :: cookiesOf rest
  | _ :: rest => cookiesOf rest

/-- The body bytes written to a response, in order. -/
def bodyOf : List Call → Bytes
  | [] => []
  | Call.write p :: rest => p ++ bodyOf rest
  | _ :: rest => bodyOf rest

/-! ## The flash package (not under `src/`) -/

/-- Modelled from the spec: the type `flash.Data` of the flash package, which is
not under `src/`; a flash message is a (kind, text) pair. -/
structure flash.Data where
  kind : String
  text : String
deriving DecidableEq, Repr

/-- Modelled from the spec: the flash value codec `flash.Encode` and
`flash.Decode`, whose algorithm is not under `src/`; it is a parameter of every
function that uses it. -/
structure Codec where
  Encode : List flash.Data → String
  Decode : String → List flash.Data

/-- The values a request context carries that the modelled code reads: the
flash sequence attached to it, `[]` when none is attached. -/
structure Context where
  flashes : List flash.Data := []
deriving DecidableEq, Repr

/-- The parts of `*http.Request` the modelled code reads: the cookies the
request carries, as `r.Cookies()` lists them, and its context. -/
structure Request where
  cookies : List Cookie := []
  ctx : Context := {}
deriving DecidableEq, Repr

/-- The method `r.Cookie(name)`: the first cookie of that name, `none` for
`http.ErrNoCookie`. -/
def Request.Cookie (r : Request) (name : String) : Option Cookie :=
  r.cookies.find? (fun c => c.Name = name)

/-- The method `r.WithContext(ctx)`. -/
def Request.WithContext (r : Request) (ctx : Context) : Request :=
  { r with ctx := ctx }

/-- Modelled from the spec: `flash.NewContext(ctx, flashes)` of the flash
package, which is not under `src/`; it attaches the sequence to the context. -/
def flash.NewContext (ctx : Context) (flashes : List flash.Data) : Context :=
  { ctx with flashes := flashes }

/-- Modelled from the spec: `flash.FromRequest(r)` of the flash package, which
is not under `src/`; it returns the flash sequence already attached to the
request's context. -/
def flash.FromRequest (r : Request) : List flash.Data :=
  r.ctx.flashes

/-! ## render.go -/

/-- The function `checkFlashCookie` of render.go. -/
def checkFlashCookie (cd : Codec) (now : Time) (w : ResponseWriter) (r : Request) :
    ResponseWriter × Request × Bool :=
  match r.Cookie "flash" with
  | some cookie =>
    let flashes := cd.Decode cookie.Value
    let r := r.WithContext (flash.NewContext r.ctx flashes)
    let w := http.SetCookie w { Name := "flash", MaxAge := -1, Expires := some (now + (-1) * time.Hour) }
    (w, r, true)
  | none => (w, r, false)

/-- The function `setFlashCookie` of render.go. -/
def setFlashCookie (cd : Codec) (now : Time) (w : ResponseWriter) (r : Request)
    (redirect : Bool) (flashes : List flash.Data) : ResponseWriter × Request :=
  let (w, r, flashCookieDeleted) := checkFlashCookie cd now w r
  if !redirect || flashCookieDeleted then (w, r)
  else if flashes.length = 0 then (w, r)
  else
    (http.SetCookie w
      { Name := "flash", Value := cd.Encode flashes, Path := "/",
        SameSite := SameSite.SameSiteStrictMode, Secure := true }, r)

/-- The interface `RenderData` of render.go. -/
class RenderData (δ : Type) where
  SetFlashes : List flash.Data → δ → δ

/-- The method `(*template.Template).Execute(buf, data)` as the page sees it:
the bytes it appends to the buffer and the error it returns (bytes may have
been appended before a failure). -/
structure Template (δ : Type) where
  Execute : δ → Bytes × Option String

/-- The struct `Page` of render.go. -/
structure Page (δ : Type) where
  tmpl : Template δ
  name : String

/-- One event written through the request's logger. -/
structure LogEntry where
  code : Int
  template : String
  err : String
  msg : String
deriving DecidableEq, Repr

/-- Modelled from the spec: `utils.GetBytesBuffer()` of the utils package, which
is not under `src/`; it hands out an empty intermediate buffer. -/
def utils.GetBytesBuffer : Bytes := []

/-- What a call of `Page.Render` leaves behind: the writer, the request (it is
updated through the pointer), the data object and the log lines. -/
structure Rendered (δ : Type) where
  w : ResponseWriter
  r : Request
  data : δ
  log : List LogEntry

/-- The method `Page.Render` of render.go. -/
def Page.Render {δ : Type} [RenderData δ] (cd : Codec) (now : Time) (p : Page δ)
    (w : ResponseWriter) (r : Request) (code : Int) (data : δ) : Rendered δ :=
  let buf := utils.GetBytesBuffer
  let flashes := flash.FromRequest r
  let (w, r) := setFlashCookie cd now w r false flashes
  let data := RenderData.SetFlashes flashes data
  let (out, err) := p.tmpl.Execute data
  let buf := buf ++ out
  match err with
  | some e =>
    { w := http.Error w "Internal Server Error" http.StatusInternalServerError, r := r,
      data := data,
      log := [{ code := code, template := p.name, err := e,
                msg := "failed to execute template" }] }
  | none =>
    let w := w.HeaderSet "Content-Type" "text/html; charset=utf-8"
    let w := w.WriteHeader code
    let (w, err) := WriteTo buf w
    match err with
    | some e =>
      { w := w, r := r, data := data,
        log := [{ code := code, template := p.name, err := e,
                  msg := "failed to write template to response" }] }
    | none => { w := w, r := r, data := data, log := [] }

/-- The function `Redirect` of render.go. -/
def Redirect (cd : Codec) (now : Time) (w : ResponseWriter) (r : Request) (url : String)
    (code : Int) : ResponseWriter × Request :=
  let (w, r) := setFlashCookie cd now w r true (flash.FromRequest r)
  (http.Redirect w url code, r)

/-- A data object that records every argument `SetFlashes` is called with. -/
structure Recorder where
  seen : List (List flash.Data) := []
deriving DecidableEq, Repr

instance : RenderData Recorder where
  SetFlashes flashes d := { seen := d.seen ++ [flashes] }

/-! ## app.go -/

/-- The string type `XFrameOptions` of app.go. -/
abbrev XFrameOptions := String

/-- The constant `XFrameOptionsDeny`. -/
def XFrameOptionsDeny : XFrameOptions := "DENY"

/-- The constant `XFrameOptionsSameOrigin`. -/
def XFrameOptionsSameOrigin : XFrameOptions := "SAMEORIGIN"

/-- The struct `Security` of app.go. -/
structure Security where
  XFrameOptions : Esox.XFrameOptions
  NoSniff : Bool
  CSP : String
deriving DecidableEq, Repr

/-- The variable `DefaultSecurity` of app.go, at its initial value. -/
def DefaultSecurity : Security :=
  { XFrameOptions := XFrameOptionsDeny, NoSniff := true, CSP := "default-src 'self'" }

/-- The fields of the struct `App` that `middleware` and `Handler` read. `H` is the type of
`http.Handler` values; `Routes` lists the entries of the Go map in the order the `range`
loop visits them; `none` is the nil pointer or nil interface. -/
structure App (H : Type) where
  Routes : List (String × H)
  Handler404 : Option H
  Security : Option Security

/-- A handler as a state transformer (`ServeHTTP(w, r)`). -/
abbrev HandlerFunc := ResponseWriter → Request → ResponseWriter × Request

/-- The header-writing statements of the last stage `App.middleware` appends
(the closure body up to, not including, `next.ServeHTTP(w, r)`). -/
def App.securityHeaders {H : Type} (a : App H) (w : ResponseWriter) : ResponseWriter :=
  let security := match a.Security with
    | some s => s
    | none => DefaultSecurity
  let w := if security.XFrameOptions ≠ "" then
      w.HeaderSet "X-Frame-Options" security.XFrameOptions else w
  let w := if security.NoSniff then w.HeaderSet "X-Content-Type-Options" "nosniff" else w
  let w := if security.CSP ≠ "" then w.HeaderSet "Content-Security-Policy" security.CSP else w
  w

/-- The last stage `App.middleware` appends: write the security headers, then run `next`. -/
def App.securityStage {H : Type} (a : App H) (next : HandlerFunc) : HandlerFunc :=
  fun w r => next (a.securityHeaders w) r

/-- The `alice.Constructor` values the source builds, kept as data. -/
inductive Stage (H : Type) where
  /-- The stage `hlog.NewHandler(log)`. -/
  | NewHandler
  /-- The stage `hlog.AccessHandler(...)`. -/
  | AccessHandler
  /-- The stage `hlog.MethodHandler(fieldKey)`. -/
  | MethodHandler (fieldKey : String)
  /-- The stage `hlog.RefererHandler(fieldKey)`. -/
  | RefererHandler (fieldKey : String)
  /-- The stage `hlog.RequestIDHandler(fieldKey, headerName)`. -/
  | RequestIDHandler (fieldKey headerName : String)
  /-- The stage `hlog.URLHandler(fieldKey)`. -/
  | URLHandler (fieldKey : String)
  /-- The stage `hlog.UserAgentHandler(fieldKey)`. -/
  | UserAgentHandler (fieldKey : String)
  /-- The security-header closure; it reads `a.Security`, see `App.securityStage`. -/
  | security (s : Option Security)
  /-- The stage `notFoundMiddleware(h)`; the function is not under `src/` and is kept as
  a name applied to its argument. -/
  | notFoundMiddleware (h : Option H)
deriving DecidableEq, Repr

/-- The type `alice.Chain`: constructors, outermost first. -/
abbrev Chain (H : Type) := List (Stage H)

/-- The handlers a chain is closed with. -/
inductive Endpoint (H : Type) where
  /-- The function `staticHandler` (not under `src/`), kept as a name. -/
  | staticHandler
  /-- A handler taken from `a.Routes`. -/
  | route (handler : H)
  /-- The handler `http.NotFoundHandler()`. -/
  | NotFoundHandler
deriving DecidableEq, Repr

/-- The result of `c.Then(h)`: `h` behind the stages of `c`, first stage outermost. -/
structure Wrapped (H : Type) where
  stages : Chain H
  final : Endpoint H
deriving DecidableEq, Repr

/-- The method `alice.Chain.Append`: a new chain, the receiver is not changed. -/
def Chain.Append {H : Type} (c : Chain H) (constructors : List (Stage H)) : Chain H :=
  c ++ constructors

/-- The methods `alice.Chain.Then` and `ThenFunc`. -/
def Chain.Then {H : Type} (c : Chain H) (h : Endpoint H) : Wrapped H :=
  { stages := c, final := h }

/-- An `http.ServeMux`: the registrations made with `Handle`, oldest first. -/
abbrev ServeMux (H : Type) := List (String × Wrapped H)

/-- The method `mux.Handle(pattern, handler)` for a well-formed pattern that is not
registered yet. -/
def ServeMux.Handle {H : Type} (mux : ServeMux H) (pattern : String) (handler : Wrapped H) :
    ServeMux H :=
  mux ++ [(pattern, handler)]

/-- Whether a registered pattern matches a path: a pattern names one fixed path or, when it
ends in a slash, the subtree rooted there. -/
def pathMatch (pattern path : String) : Bool :=
  pattern = path || (pattern.data.getLast? = some '/' && pattern.data.isPrefixOf path.data)

/-- One step of `(*ServeMux).match`: a registration that matches the path replaces the best
one found so far when its pattern is longer. -/
def ServeMux.pick {H : Type} (path : String) (best : Option (String × Wrapped H))
    (e : String × Wrapped H) : Option (String × Wrapped H) :=
  if pathMatch e.1 path then
    match best with
    | none => some e
    | some b => if b.1.length < e.1.length then some e else some b
  else best

/-- The method `(*ServeMux).match`: the registration whose pattern is the path itself, else
the one with the longest subtree pattern the path lies under. -/
def ServeMux.matchPath {H : Type} (mux : ServeMux H) (path : String) :
    Option (String × Wrapped H) :=
  mux.foldl (ServeMux.pick path) none

/-- Whether a pattern is registered (a key of the mux's pattern table). -/
def ServeMux.registered {H : Type} (mux : ServeMux H) (pattern : String) : Bool :=
  mux.any (fun e => e.1 = pattern)

/-- The flag `mux.hosts`: some registered pattern does not begin with a slash, that is, it
begins with a host name. -/
def ServeMux.hosts {H : Type} (mux : ServeMux H) : Bool :=
  mux.any (fun e => e.1.data.head? ≠ some '/')

/-- The method `(*ServeMux).handler(host, path)`: a host-specific pattern takes precedence
over a general one; `none` stands for the mux's own `NotFoundHandler()`. -/
def ServeMux.handler {H : Type} (mux : ServeMux H) (host path : String) :
    Option (String × Wrapped H) :=
  match (if mux.hosts then mux.matchPath (host ++ path) else none) with
  | some e => some e
  | none => mux.matchPath path

/-- The check behind `redirectToPathSlash`: the path is not registered, the path followed by
a slash is, and the path does not itself end in a slash. -/
def ServeMux.shouldRedirect {H : Type} (mux : ServeMux H) (host path : String) : Bool :=
  if mux.registered path || mux.registered (host ++ path) then false
  else if path = "" then false
  else if mux.registered (path ++ "/") || mux.registered (host ++ path ++ "/") then
    path.data.getLast? ≠ some '/'
  else false

/-- What `(*ServeMux).Handler` answers for a request. -/
inductive Dispatch (H : Type) where
  /-- The registration that serves the request. -/
  | handler (e : String × Wrapped H)
  /-- A 301 redirect to the given path. -/
  | redirect (path : String)
  /-- No pattern matches: the mux's own 404 page. -/
  | notFound
deriving DecidableEq, Repr

/-- The method `(*ServeMux).Handler` for a request other than CONNECT, given its host (port
stripped) and its URL path, for patterns without method or wildcard syntax. The library's
`cleanPath` is a parameter. A subtree root named without its trailing slash is redirected,
so is a path that is not in clean form; otherwise `handler` selects. -/
def ServeMux.Handler {H : Type} (mux : ServeMux H) (cleanPath : String → String)
    (host urlPath : String) : Dispatch H :=
  let path := cleanPath urlPath
  if mux.shouldRedirect host path then Dispatch.redirect (path ++ "/")
  else if path ≠ urlPath then Dispatch.redirect path
  else
    match mux.handler host urlPath with
    | some e => Dispatch.handler e
    | none => Dispatch.notFound

/-- Whether a registered pattern lays claim to a request: it matches the path, alone or behind
the host name, or it is the subtree root the path names without its trailing slash. -/
def patternClaims (pattern host path : String) : Bool :=
  pathMatch pattern path || pathMatch pattern (host ++ path)
    || pattern = path ++ "/" || pattern = host ++ path ++ "/"

/-- The method `App.middleware` of app.go. -/
def App.middleware {H : Type} (a : App H) : Chain H :=
  let c : Chain H := []
  let c := c.Append [Stage.NewHandler]
  let c := c.Append [Stage.AccessHandler]
  let c := c.Append
    [Stage.MethodHandler "method", Stage.RefererHandler "referer",
     Stage.RequestIDHandler "request_id" "X-Request-ID", Stage.URLHandler "url",
     Stage.UserAgentHandler "user_agent"]
  let c := c.Append [Stage.security a.Security]
  c

/-- The `range a.Routes` loop of `App.Handler`, over the entries still to visit; the state
is the mux and `hasRootPath`. -/
def App.routesLoop {H : Type} (a : App H) (c : Chain H) :
    List (String × H) → ServeMux H → Bool → Except String (ServeMux H × Bool)
  | [], mux, hasRootPath => Except.ok (mux, hasRootPath)
  | (path, handler) :: rest, mux, hasRootPath =>
    if path = "/static/" then Except.error "reserved path: /static/"
    else if path = "/" ∧ a.Handler404.isSome then
      a.routesLoop c rest
        (mux.Handle path
          ((c.Append [Stage.notFoundMiddleware a.Handler404]).Then (Endpoint.route handler)))
        true
    else
      a.routesLoop c rest (mux.Handle path (c.Then (Endpoint.route handler))) hasRootPath

/-- The method `App.Handler` of app.go. -/
def App.Handler {H : Type} (a : App H) : Except String (ServeMux H) :=
  let mux : ServeMux H := []
  let c := a.middleware
  let mux := mux.Handle "/static/" (c.Then Endpoint.staticHandler)
  match a.routesLoop c a.Routes mux false with
  | Except.error e => Except.error e
  | Except.ok (mux, hasRootPath) =>
    if !hasRootPath ∧ a.Handler404.isSome then
      Except.ok
        (mux.Handle "/"
          ((c.Append [Stage.notFoundMiddleware a.Handler404]).Then Endpoint.NotFoundHandler))
    else Except.ok mux

/-- The registration one pass of the `range a.Routes` loop makes for an entry. -/
def App.registration {H : Type} (a : App H) (c : Chain H) (e : String × H) :
    String × Wrapped H :=
  if e.1 = "/" ∧ a.Handler404.isSome then
    (e.1, (c.Append [Stage.notFoundMiddleware a.Handler404]).Then (Endpoint.route e.2))
  else (e.1, c.Then (Endpoint.route e.2))

/-- The handler that ends the chain registered at "/" when a 404 handler is configured: the
application's own "/" route when `Routes` has one, `http.NotFoundHandler()` otherwise. -/
def App.rootEndpoint {H : Type} (a : App H) : Endpoint H :=
  match a.Routes.find? (fun e => e.1 = "/") with
  | some e => Endpoint.route e.2
  | none => Endpoint.NotFoundHandler

/-! ## What a registered handler does with a request -/

/-- The constant `http.StatusNotFound`. -/
def http.StatusNotFound : Int := 404

/-- The handler `http.NotFoundHandler()`: it replies `http.Error(w, "404 page not found", 404)`. -/
def http.NotFoundHandler : HandlerFunc :=
  fun w r => (http.Error w "404 page not found" http.StatusNotFound, r)

/-- The status a run of calls answers with: the first call that fixes the status line (a body
write without status line means 200). -/
def statusOf : List Call → Option Int
  | [] => none
  | Call.writeHeader code :: _ => some code
  | Call.httpError _ code :: _ => some code
  | Call.httpRedirect _ code :: _ => some code
  | Call.write _ :: _ => some 200
  | _ :: rest => statusOf rest

/-- Whether a handler that took the writer from `w` to `w2` reported "not found". -/
def reportsNotFound (w w2 : ResponseWriter) : Bool :=
  statusOf (w2.calls.drop w.calls.length) = some http.StatusNotFound

/-- Modelled from the spec: the function `notFoundMiddleware(h)` of this repository, which is
not under `src/`: "if the underlying handler would otherwise report not found, substitute the
custom not-found handler instead; any other outcome (including other error statuses) passes
through unchanged". -/
def notFoundMiddleware (h : HandlerFunc) (next : HandlerFunc) : HandlerFunc :=
  fun w r => if reportsNotFound w (next w r).1 then h w r else next w r

/-- The behaviour other packages supply: what serving a handler value does (`none` is the nil
handler), what each zerolog stage does around the next handler, and the static-asset
handler. -/
structure Handlers (H : Type) where
  ServeHTTP : Option H → HandlerFunc
  hlog : Stage H → HandlerFunc → HandlerFunc
  staticHandler : HandlerFunc

/-- The handler a stage makes of the next one. -/
def Stage.wrap {H : Type} (hs : Handlers H) : Stage H → HandlerFunc → HandlerFunc
  | Stage.security s, next =>
    App.securityStage ({ Routes := [], Handler404 := none, Security := s } : App H) next
  | Stage.notFoundMiddleware h, next => Esox.notFoundMiddleware (hs.ServeHTTP h) next
  | s, next => hs.hlog s next

/-- The handler a chain makes of a final handler: the first stage is outermost. -/
def Chain.wrap {H : Type} (hs : Handlers H) (c : Chain H) (h : HandlerFunc) : HandlerFunc :=
  c.foldr (Stage.wrap hs) h

/-- What the handler a chain is closed with does. -/
def Endpoint.ServeHTTP {H : Type} (hs : Handlers H) : Endpoint H → HandlerFunc
  | Endpoint.staticHandler => hs.staticHandler
  | Endpoint.route handler => hs.ServeHTTP (some handler)
  | Endpoint.NotFoundHandler => http.NotFoundHandler

/-- What a registered handler does: `c.Then(h)` runs the stages of `c` around `h`. -/
def Wrapped.ServeHTTP {H : Type} (hs : Handlers H) (x : Wrapped H) : HandlerFunc :=
  Chain.wrap hs x.stages (Endpoint.ServeHTTP hs x.final)

/-! ## Example values -/

/-- A writer with no header and no call yet. -/
def emptyWriter : ResponseWriter := { header := fun _ => [] }

/-- A codec for examples: every sequence encodes to its kinds, nothing decodes. -/
def kindsCodec : Codec :=
  { Encode := fun flashes => String.join (flashes.map (fun d => d.kind)), Decode := fun _ => [] }

/-- A page whose template renders three bytes. -/
def okPage : Page Recorder := { tmpl := { Execute := fun _ => ([60, 112, 62], none) }, name := "ok.html" }

/-- A page whose template fails after rendering two bytes. -/
def failingPage : Page Recorder :=
  { tmpl := { Execute := fun _ => ([60, 112], some "boom") }, name := "bad.html" }

/-- Handlers for examples: a handler value answers with its number as status, the zerolog
stages pass the request on, the static handler writes nothing. -/
def exampleHandlers : Handlers Nat :=
  { ServeHTTP := fun h w r => (w.WriteHeader (Int.ofNat (h.getD 0)), r),
    hlog := fun _ next => next,
    staticHandler := fun w r => (w, r) }

/-- An App with one route and a 404 handler, and no route at "/". -/
def itemsApp : App Nat :=
  { Routes := [("/items", 2)], Handler404 := some 404, Security := none }

/-! ## Lemmas on the response record and on the flash protocol -/

theorem cookiesOf_append (a b : List Call) : cookiesOf (a ++ b) = cookiesOf a ++ cookiesOf b := by
  induction a with
  | nil => rfl
  | cons c rest ih => cases c <;> simp [cookiesOf, ih]

theorem bodyOf_append (a b : List Call) : bodyOf (a ++ b) = bodyOf a ++ bodyOf b := by
  induction a with
  | nil => rfl
  | cons c rest ih => cases c <;> simp [bodyOf, ih]

theorem checkFlashCookie_of_cookie (cd : Codec) (now : Time) (w : ResponseWriter) (r : Request)
    (cookie : Cookie) (h : r.Cookie "flash" = some cookie) :
    checkFlashCookie cd now w r =
      (http.SetCookie w { Name := "flash", MaxAge := -1, Expires := some (now + (-1) * time.Hour) },
       r.WithContext (flash.NewContext r.ctx (cd.Decode cookie.Value)), true) := by
  simp [checkFlashCookie, h]

theorem checkFlashCookie_of_no_cookie (cd : Codec) (now : Time) (w : ResponseWriter) (r : Request)
    (h : r.Cookie "flash" = none) : checkFlashCookie cd now w r = (w, r, false) := by
  simp [checkFlashCookie, h]

theorem setFlashCookie_no_redirect (cd : Codec) (now : Time) (w : ResponseWriter) (r : Request)
    (flashes : List flash.Data) :
    setFlashCookie cd now w r false flashes =
      ((checkFlashCookie cd now w r).1, (checkFlashCookie cd now w r).2.1) := by
  simp [setFlashCookie]

theorem Render_data {δ : Type} [RenderData δ] (cd : Codec) (now : Time) (p : Page δ)
    (w : ResponseWriter) (r : Request) (code : Int) (data : δ) :
    (Page.Render cd now p w r code data).data = RenderData.SetFlashes (flash.FromRequest r) data := by
  unfold Page.Render
  simp only []
  split <;> [rfl; (split <;> rfl)]

theorem Render_w_of_failure {δ : Type} [RenderData δ] (cd : Codec) (now : Time) (p : Page δ)
    (w : ResponseWriter) (r : Request) (code : Int) (data : δ) (e : String)
    (h : (p.tmpl.Execute (RenderData.SetFlashes (flash.FromRequest r) data)).2 = some e) :
    (Page.Render cd now p w r code data).w =
      http.Error (checkFlashCookie cd now w r).1 "Internal Server Error" http.StatusInternalServerError := by
  unfold Page.Render
  simp only [setFlashCookie_no_redirect, h]

theorem Render_w_of_success {δ : Type} [RenderData δ] (cd : Codec) (now : Time) (p : Page δ)
    (w : ResponseWriter) (r : Request) (code : Int) (data : δ)
    (h : (p.tmpl.Execute (RenderData.SetFlashes (flash.FromRequest r) data)).2 = none) :
    (Page.Render cd now p w r code data).w =
      (WriteTo (p.tmpl.Execute (RenderData.SetFlashes (flash.FromRequest r) data)).1
        (((checkFlashCookie cd now w r).1.HeaderSet "Content-Type"
          "text/html; charset=utf-8").WriteHeader code)).1 := by
  unfold Page.Render
  simp only [setFlashCookie_no_redirect, h, utils.GetBytesBuffer, List.nil_append]
  split <;> rfl

theorem Render_r {δ : Type} [RenderData δ] (cd : Codec) (now : Time) (p : Page δ)
    (w : ResponseWriter) (r : Request) (code : Int) (data : δ) :
    (Page.Render cd now p w r code data).r = (checkFlashCookie cd now w r).2.1 := by
  unfold Page.Render
  simp only [setFlashCookie_no_redirect]
  split <;> [rfl; (split <;> rfl)]

/-! ## The flash cookie protocol and `Page.Render` -/

/-- C1 (code defect): a request that carries the cookie `flash = Encode F` and has no flashes
in its context; `Page.Render` hands `SetFlashes` the empty sequence, whatever `F` is, and only
afterwards leaves `Decode (Encode F)` in the request's context. -/
theorem Render_drops_cookie_flashes {δ : Type} [RenderData δ] (cd : Codec) (now : Time)
    (p : Page δ) (w : ResponseWriter) (code : Int) (data : δ) (F : List flash.Data) :
    (Page.Render cd now p w
        { cookies := [{ Name := "flash", Value := cd.Encode F }], ctx := {} } code data).data
      = RenderData.SetFlashes [] data
    ∧ flash.FromRequest (Page.Render cd now p w
        { cookies := [{ Name := "flash", Value := cd.Encode F }], ctx := {} } code data).r
      = cd.Decode (cd.Encode F) := by
  refine ⟨?_, ?_⟩
  · rw [Render_data]; rfl
  · rw [Render_r]
    simp [checkFlashCookie, Request.Cookie, flash.FromRequest, Request.WithContext, flash.NewContext]

/-- C2: when the request carries a cookie named "flash", `Page.Render` (for any template
outcome) and `Redirect` (for any flashes in the context) each add exactly one cookie:
the deletion cookie named "flash" with empty value, `MaxAge = -1` and an `Expires`
one hour before `now`; so no "flash" cookie with a non-empty value is added. -/
theorem flash_cookie_cleared {δ : Type} [RenderData δ] (cd : Codec) (now : Time) (p : Page δ)
    (w : ResponseWriter) (r : Request) (code : Int) (data : δ) (url : String) (rcode : Int)
    (h : (r.Cookie "flash").isSome = true) :
    cookiesOf (Page.Render cd now p w r code data).w.calls
      = cookiesOf w.calls ++
          [{ Name := "flash", Value := "", MaxAge := -1, Expires := some (now - time.Hour) }]
    ∧ cookiesOf (Redirect cd now w r url rcode).1.calls
      = cookiesOf w.calls ++
          [{ Name := "flash", Value := "", MaxAge := -1, Expires := some (now - time.Hour) }]
    ∧ now - time.Hour < now := by
  obtain ⟨c, hc⟩ := Option.isSome_iff_exists.mp h
  have hchk := checkFlashCookie_of_cookie cd now w r c hc
  have hsub : now + -time.Hour = now - time.Hour := by ring
  refine ⟨?_, ?_, ?_⟩
  · cases hx : (p.tmpl.Execute (RenderData.SetFlashes (flash.FromRequest r) data)).2 with
    | some e =>
      rw [Render_w_of_failure cd now p w r code data e hx, hchk]
      simp [http.Error, http.SetCookie, cookiesOf_append, cookiesOf, hsub]
    | none =>
      rw [Render_w_of_success cd now p w r code data hx, hchk]
      simp only [WriteTo]
      split <;>
        simp [ResponseWriter.WriteHeader, ResponseWriter.HeaderSet, http.SetCookie, cookiesOf_append,
          cookiesOf, hsub]
  · simp [Redirect, http.Redirect, setFlashCookie, hchk, http.SetCookie, cookiesOf_append,
      cookiesOf, hsub]
  · simp [time.Hour]

/-- A request carrying `flash=success`, rendered by a failing page and redirected: each
response gets the one deletion cookie. -/
theorem flash_cookie_cleared_witness :
    cookiesOf (Page.Render kindsCodec 7200000000000 failingPage emptyWriter
        { cookies := [{ Name := "flash", Value := "success" }] } 200 {}).w.calls
      = cookiesOf emptyWriter.calls ++
          [{ Name := "flash", Value := "", MaxAge := -1,
             Expires := some (7200000000000 - time.Hour) }]
    ∧ cookiesOf (Redirect kindsCodec 7200000000000 emptyWriter
        { cookies := [{ Name := "flash", Value := "success" }] } "/items" 303).1.calls
      = cookiesOf emptyWriter.calls ++
          [{ Name := "flash", Value := "", MaxAge := -1,
             Expires := some (7200000000000 - time.Hour) }]
    ∧ (7200000000000 : Time) - time.Hour < 7200000000000 :=
  flash_cookie_cleared kindsCodec 7200000000000 failingPage emptyWriter
    { cookies := [{ Name := "flash", Value := "success" }] } 200 {} "/items" 303 (by decide)

/-- C3 (as stated, refuted): a request with no cookie at all whose context already holds one
flash message; `Page.Render` passes that message to `SetFlashes`, not the empty sequence. -/
theorem Render_no_cookie_counterexample :
    ({ cookies := [], ctx := { flashes := [{ kind := "info", text := "hi" }] } } :
        Request).Cookie "flash" = none
    ∧ (Page.Render kindsCodec 0 okPage emptyWriter
        { cookies := [], ctx := { flashes := [{ kind := "info", text := "hi" }] } } 200
        { seen := [] }).data.seen = [[{ kind := "info", text := "hi" }]] := by
  decide

/-- C3 (amended): for a request with no cookie named "flash", `Page.Render` passes to
`SetFlashes` exactly the flash sequence the request's context held before the call (the
empty sequence when the context holds none), adds no cookie and leaves the request as it
was. -/
theorem Render_no_cookie_injects_context {δ : Type} [RenderData δ] (cd : Codec) (now : Time)
    (p : Page δ) (w : ResponseWriter) (r : Request) (code : Int) (data : δ)
    (h : r.Cookie "flash" = none) :
    (Page.Render cd now p w r code data).data = RenderData.SetFlashes r.ctx.flashes data
    ∧ (r.ctx.flashes = [] →
        (Page.Render cd now p w r code data).data = RenderData.SetFlashes [] data)
    ∧ cookiesOf (Page.Render cd now p w r code data).w.calls = cookiesOf w.calls
    ∧ (Page.Render cd now p w r code data).r = r := by
  have hchk := checkFlashCookie_of_no_cookie cd now w r h
  refine ⟨Render_data cd now p w r code data, ?_, ?_, ?_⟩
  · intro h0
    rw [Render_data, flash.FromRequest, h0]
  · cases hx : (p.tmpl.Execute (RenderData.SetFlashes (flash.FromRequest r) data)).2 with
    | some e =>
      rw [Render_w_of_failure cd now p w r code data e hx, hchk]
      simp [http.Error, cookiesOf_append, cookiesOf]
    | none =>
      rw [Render_w_of_success cd now p w r code data hx, hchk]
      simp only [WriteTo]
      split <;>
        simp [ResponseWriter.WriteHeader, ResponseWriter.HeaderSet, cookiesOf_append, cookiesOf]
  · rw [Render_r, hchk]

/-- A request with only a session cookie and one flash in its context: that flash is what
`SetFlashes` receives. -/
theorem Render_no_cookie_injects_context_witness :
    (Page.Render kindsCodec 0 okPage emptyWriter
        { cookies := [{ Name := "session", Value := "abc" }],
          ctx := { flashes := [{ kind := "info", text := "hi" }] } } 200 { seen := [] }).data.seen
      = [[{ kind := "info", text := "hi" }]] :=
  congrArg Recorder.seen
    (Render_no_cookie_injects_context kindsCodec 0 okPage emptyWriter
      { cookies := [{ Name := "session", Value := "abc" }],
        ctx := { flashes := [{ kind := "info", text := "hi" }] } } 200 { seen := [] }
      (by decide)).1

/-- C4 (as stated, refuted): a request carrying a flash cookie, an empty response, the same
clock value for both calls; after one call of `checkFlashCookie` the response holds one
deletion cookie, after the second call it holds two, so the two responses differ. -/
theorem checkFlashCookie_twice_counterexample :
    (checkFlashCookie kindsCodec 0 emptyWriter
        { cookies := [{ Name := "flash", Value := "success" }] }).1.calls
      = [Call.setCookie { Name := "flash", MaxAge := -1, Expires := some (-time.Hour) }]
    ∧ (checkFlashCookie kindsCodec 0
        (checkFlashCookie kindsCodec 0 emptyWriter
          { cookies := [{ Name := "flash", Value := "success" }] }).1
        (checkFlashCookie kindsCodec 0 emptyWriter
          { cookies := [{ Name := "flash", Value := "success" }] }).2.1).1.calls
      = [Call.setCookie { Name := "flash", MaxAge := -1, Expires := some (-time.Hour) },
         Call.setCookie { Name := "flash", MaxAge := -1, Expires := some (-time.Hour) }] := by
  decide

/-- C4 (amended): a second call of `checkFlashCookie` on the same request repeats the first.
It returns the same flag and leaves the same request; when the request carries a cookie named
"flash" it decodes the value again and appends one more deletion cookie to the response,
and when the request carries none it leaves the response as the first call left it. -/
theorem checkFlashCookie_twice (cd : Codec) (now now2 : Time) (w : ResponseWriter)
    (r : Request) :
    (checkFlashCookie cd now2 (checkFlashCookie cd now w r).1
        (checkFlashCookie cd now w r).2.1).2.2 = (checkFlashCookie cd now w r).2.2
    ∧ (checkFlashCookie cd now2 (checkFlashCookie cd now w r).1
        (checkFlashCookie cd now w r).2.1).2.1 = (checkFlashCookie cd now w r).2.1
    ∧ (checkFlashCookie cd now2 (checkFlashCookie cd now w r).1
        (checkFlashCookie cd now w r).2.1).1.calls
      = (checkFlashCookie cd now w r).1.calls ++
          (if (r.Cookie "flash").isSome then
            [Call.setCookie
              { Name := "flash", Value := "", MaxAge := -1, Expires := some (now2 - time.Hour) }]
           else [])
    ∧ (∀ c, r.Cookie "flash" = some c →
        flash.FromRequest (checkFlashCookie cd now w r).2.1 = cd.Decode c.Value) := by
  cases hc : r.Cookie "flash" with
  | none =>
    rw [checkFlashCookie_of_no_cookie cd now w r hc]
    simp [checkFlashCookie_of_no_cookie cd now2 w r hc]
  | some c =>
    have hc2 : (r.WithContext (flash.NewContext r.ctx (cd.Decode c.Value))).Cookie "flash" = some c := hc
    rw [checkFlashCookie_of_cookie cd now w r c hc]
    simp only [checkFlashCookie_of_cookie cd now2 _ _ c hc2]
    refine ⟨trivial, ?_, ?_, ?_⟩
    · simp [Request.WithContext, flash.NewContext]
    · have hsub : now2 + -time.Hour = now2 - time.Hour := by ring
      simp [http.SetCookie, hsub]
    · intro c2 h2
      cases h2
      rfl

/-- C5: `setFlashCookie` first does what `checkFlashCookie` does; it then adds a new "flash"
cookie exactly when `redirect` is true, the request carries no cookie named "flash" and
`flashes` is non-empty, and that cookie has Path "/", SameSite Strict, Secure set, the encoded
flashes as value and neither MaxAge nor Expires. In every other case nothing is added. -/
theorem setFlashCookie_spec (cd : Codec) (now : Time) (w : ResponseWriter) (r : Request)
    (redirect : Bool) (flashes : List flash.Data) :
    (setFlashCookie cd now w r redirect flashes).1.calls
      = (checkFlashCookie cd now w r).1.calls ++
          (if redirect = true ∧ r.Cookie "flash" = none ∧ flashes ≠ [] then
            [Call.setCookie
              { Name := "flash", Value := cd.Encode flashes, Path := "/", Domain := "",
                Expires := none, MaxAge := 0, Secure := true, HttpOnly := false,
                SameSite := SameSite.SameSiteStrictMode }]
           else [])
    ∧ (setFlashCookie cd now w r redirect flashes).1.header = (checkFlashCookie cd now w r).1.header
    ∧ (setFlashCookie cd now w r redirect flashes).2 = (checkFlashCookie cd now w r).2.1
    ∧ (cookiesOf (setFlashCookie cd now w r redirect flashes).1.calls
          ≠ cookiesOf (checkFlashCookie cd now w r).1.calls
        ↔ (redirect = true ∧ r.Cookie "flash" = none ∧ flashes ≠ [])) := by
  cases hc : r.Cookie "flash" with
  | some c =>
    simp [setFlashCookie, checkFlashCookie_of_cookie cd now w r c hc]
  | none =>
    cases redirect with
    | false => simp [setFlashCookie, checkFlashCookie_of_no_cookie cd now w r hc]
    | true =>
      cases flashes with
      | nil => simp [setFlashCookie, checkFlashCookie_of_no_cookie cd now w r hc]
      | cons d rest =>
        simp [setFlashCookie, checkFlashCookie_of_no_cookie cd now w r hc, http.SetCookie,
          cookiesOf_append, cookiesOf]

/-- C6: when executing the template returns an error, `Page.Render` adds to what
`checkFlashCookie` did exactly one call, `http.Error(w, "Internal Server Error", 500)`;
it writes no body byte of its own (the buffer is dropped), and the calls made do not depend
on the page, the error, the requested status code or the data object. -/
theorem Render_failure {δ : Type} [RenderData δ] (cd : Codec) (now : Time) (p : Page δ)
    (w : ResponseWriter) (r : Request) (code : Int) (data : δ) (e : String)
    (h : (p.tmpl.Execute (RenderData.SetFlashes (flash.FromRequest r) data)).2 = some e) :
    (Page.Render cd now p w r code data).w.calls
      = (checkFlashCookie cd now w r).1.calls ++ [Call.httpError "Internal Server Error" 500]
    ∧ bodyOf (Page.Render cd now p w r code data).w.calls = bodyOf w.calls
    ∧ (∀ (p2 : Page δ) (code2 : Int) (data2 : δ) (e2 : String),
        (p2.tmpl.Execute (RenderData.SetFlashes (flash.FromRequest r) data2)).2 = some e2 →
        (Page.Render cd now p2 w r code2 data2).w.calls
          = (Page.Render cd now p w r code data).w.calls) := by
  have hw := Render_w_of_failure cd now p w r code data e h
  refine ⟨?_, ?_, ?_⟩
  · rw [hw]; rfl
  · rw [hw]
    cases hc : r.Cookie "flash" with
    | some c =>
      simp [checkFlashCookie_of_cookie cd now w r c hc, http.Error, http.SetCookie, bodyOf_append, bodyOf]
    | none =>
      simp [checkFlashCookie_of_no_cookie cd now w r hc, http.Error, bodyOf_append, bodyOf]
  · intro p2 code2 data2 e2 h2
    rw [hw, Render_w_of_failure cd now p2 w r code2 data2 e2 h2]

/-- The failing example page on an empty request: the only call is the generic 500. -/
theorem Render_failure_witness :
    (Page.Render kindsCodec 0 failingPage emptyWriter {} 200 {}).w.calls
      = [Call.httpError "Internal Server Error" 500] :=
  (Render_failure kindsCodec 0 failingPage emptyWriter {} 200 {} "boom" (by decide)).1

/-- C7: when executing the template succeeds with output `out`, `Page.Render` adds to what
`checkFlashCookie` did, in this order: the header `Content-Type: text/html; charset=utf-8`,
the status line with the given code, and one body write of exactly `out` (none when `out` is
empty); the body bytes it adds are exactly `out`. -/
theorem Render_success {δ : Type} [RenderData δ] (cd : Codec) (now : Time) (p : Page δ)
    (w : ResponseWriter) (r : Request) (code : Int) (data : δ) (out : Bytes)
    (h : p.tmpl.Execute (RenderData.SetFlashes (flash.FromRequest r) data) = (out, none)) :
    (Page.Render cd now p w r code data).w.calls
      = (checkFlashCookie cd now w r).1.calls
          ++ [Call.headerSet "Content-Type" "text/html; charset=utf-8", Call.writeHeader code]
          ++ (if out = [] then [] else [Call.write out])
    ∧ (Page.Render cd now p w r code data).w.header "Content-Type"
        = ["text/html; charset=utf-8"]
    ∧ bodyOf (Page.Render cd now p w r code data).w.calls = bodyOf w.calls ++ out := by
  have h2 : (p.tmpl.Execute (RenderData.SetFlashes (flash.FromRequest r) data)).2 = none := by rw [h]
  have hw := Render_w_of_success cd now p w r code data h2
  rw [h] at hw
  rw [hw]
  cases hc : r.Cookie "flash" with
  | some c =>
    rw [checkFlashCookie_of_cookie cd now w r c hc]
    by_cases ho : out = [] <;>
      simp [WriteTo, ho, ResponseWriter.WriteHeader, ResponseWriter.HeaderSet, http.SetCookie,
        Header.Set, bodyOf_append, bodyOf]
  | none =>
    rw [checkFlashCookie_of_no_cookie cd now w r hc]
    by_cases ho : out = [] <;>
      simp [WriteTo, ho, ResponseWriter.WriteHeader, ResponseWriter.HeaderSet,
        Header.Set, bodyOf_append, bodyOf]

/-- The three-byte example page with status 201: header, status line, body, in this order. -/
theorem Render_success_witness :
    (Page.Render kindsCodec 0 okPage emptyWriter {} 201 {}).w.calls
      = [Call.headerSet "Content-Type" "text/html; charset=utf-8", Call.writeHeader 201,
         Call.write [60, 112, 62]] :=
  (Render_success kindsCodec 0 okPage emptyWriter {} 201 {} [60, 112, 62] (by decide)).1

/-! ## The security stage of `App.middleware` -/

/-- C8: with `S` the configured security value (`*a.Security`, or `DefaultSecurity` =
("DENY", true, "default-src 'self'") when `a.Security` is nil), the security stage hands the
next handler a writer whose header map is the initial one except that X-Frame-Options holds
`S.XFrameOptions` when that is non-empty, X-Content-Type-Options holds "nosniff" when
`S.NoSniff`, and Content-Security-Policy holds `S.CSP` when that is non-empty; the stage makes
exactly these header writes and no other call, so with an empty CSP it writes no
Content-Security-Policy header. -/
theorem security_stage_headers {H : Type} (a : App H) (next : HandlerFunc)
    (w : ResponseWriter) (r : Request) :
    DefaultSecurity = { XFrameOptions := "DENY", NoSniff := true, CSP := "default-src 'self'" }
    ∧ a.securityStage next w r = next (a.securityHeaders w) r
    ∧ (∀ k : String,
        (a.securityHeaders w).header k
          = if k = "X-Frame-Options" ∧ (a.Security.getD DefaultSecurity).XFrameOptions ≠ "" then
              [(a.Security.getD DefaultSecurity).XFrameOptions]
            else if k = "X-Content-Type-Options"
                ∧ (a.Security.getD DefaultSecurity).NoSniff = true then
              ["nosniff"]
            else if k = "Content-Security-Policy"
                ∧ (a.Security.getD DefaultSecurity).CSP ≠ "" then
              [(a.Security.getD DefaultSecurity).CSP]
            else w.header k)
    ∧ (a.securityHeaders w).calls
        = w.calls
          ++ (if (a.Security.getD DefaultSecurity).XFrameOptions ≠ "" then
                [Call.headerSet "X-Frame-Options" (a.Security.getD DefaultSecurity).XFrameOptions]
              else [])
          ++ (if (a.Security.getD DefaultSecurity).NoSniff = true then
                [Call.headerSet "X-Content-Type-Options" "nosniff"]
              else [])
          ++ (if (a.Security.getD DefaultSecurity).CSP ≠ "" then
                [Call.headerSet "Content-Security-Policy" (a.Security.getD DefaultSecurity).CSP]
              else []) := by
  have hS : (match a.Security with
      | some s => s
      | none => DefaultSecurity) = a.Security.getD DefaultSecurity := by
    cases a.Security <;> rfl
  refine ⟨rfl, rfl, ?_, ?_⟩
  · intro k
    unfold App.securityHeaders
    simp only [hS]
    generalize a.Security.getD DefaultSecurity = S
    have h1 : ("X-Content-Type-Options" : String) ≠ "X-Frame-Options" := by decide
    have h2 : ("Content-Security-Policy" : String) ≠ "X-Frame-Options" := by decide
    have h3 : ("Content-Security-Policy" : String) ≠ "X-Content-Type-Options" := by decide
    by_cases hx : S.XFrameOptions = "" <;> by_cases hn : S.NoSniff = true <;>
      by_cases hc : S.CSP = "" <;>
      by_cases k1 : k = "X-Frame-Options" <;>
      by_cases k2 : k = "X-Content-Type-Options" <;>
      by_cases k3 : k = "Content-Security-Policy" <;>
      simp_all [ResponseWriter.HeaderSet, Header.Set]
  · unfold App.securityHeaders
    simp only [hS]
    generalize a.Security.getD DefaultSecurity = S
    by_cases hx : S.XFrameOptions = "" <;> by_cases hn : S.NoSniff = true <;>
      by_cases hc : S.CSP = "" <;>
      simp [hx, hn, hc, ResponseWriter.HeaderSet]

/-! ## Route registration in `App.Handler` -/

theorem routesLoop_eq {H : Type} (a : App H) (c : Chain H) (routes : List (String × H)) :
    ∀ (mux : ServeMux H) (hasRootPath : Bool),
      a.routesLoop c routes mux hasRootPath =
        if "/static/" ∈ routes.map Prod.fst then Except.error "reserved path: /static/"
        else Except.ok (mux ++ routes.map (a.registration c),
          hasRootPath || (a.Handler404.isSome && decide ("/" ∈ routes.map Prod.fst))) := by
  induction routes with
  | nil => intro mux b; simp [App.routesLoop]
  | cons e rest ih =>
    intro mux b
    obtain ⟨path, handler⟩ := e
    rw [App.routesLoop]
    by_cases hs : path = "/static/"
    · simp [hs]
    · have hne : ¬ ("/static/" = path) := fun h => hs h.symm
      have hmem : "/static/" ∈ List.map Prod.fst ((path, handler) :: rest)
          ↔ "/static/" ∈ rest.map Prod.fst := by simp [hne]
      rw [if_neg hs]
      by_cases hr : path = "/" ∧ a.Handler404.isSome = true
      · rw [if_pos hr, ih]
        by_cases hm : "/static/" ∈ rest.map Prod.fst
        · rw [if_pos hm, if_pos (hmem.mpr hm)]
        · rw [if_neg hm, if_neg (mt hmem.mp hm)]
          simp [ServeMux.Handle, App.registration, hr]
      · rw [if_neg hr, ih]
        by_cases hm : "/static/" ∈ rest.map Prod.fst
        · rw [if_pos hm, if_pos (hmem.mpr hm)]
        · rw [if_neg hm, if_neg (mt hmem.mp hm)]
          have hreg : a.registration c (path, handler)
              = (path, c.Then (Endpoint.route handler)) := by
            simp only [App.registration]
            rw [if_neg hr]
          have hflag : (a.Handler404.isSome
                && decide ("/" ∈ List.map Prod.fst ((path, handler) :: rest)))
              = (a.Handler404.isSome && decide ("/" ∈ rest.map Prod.fst)) := by
            cases h4 : a.Handler404.isSome
            · simp
            · have h0 : ¬ ("/" = path) := fun h => hr ⟨h.symm, h4⟩
              simp [h0]
          rw [hflag]
          simp [ServeMux.Handle, hreg]

theorem Handler_eq {H : Type} (a : App H) :
    a.Handler =
      if "/static/" ∈ a.Routes.map Prod.fst then Except.error "reserved path: /static/"
      else Except.ok
        (("/static/", a.middleware.Then Endpoint.staticHandler)
          :: a.Routes.map (a.registration a.middleware)
          ++ (if "/" ∉ a.Routes.map Prod.fst ∧ a.Handler404.isSome then
                [("/", (a.middleware.Append [Stage.notFoundMiddleware a.Handler404]).Then
                    Endpoint.NotFoundHandler)]
              else [])) := by
  unfold App.Handler
  simp only [routesLoop_eq]
  by_cases hs : "/static/" ∈ a.Routes.map Prod.fst
  · simp only [hs, if_true]
  · simp only [hs, if_false]
    by_cases hr : "/" ∈ a.Routes.map Prod.fst <;> cases h4 : a.Handler404.isSome <;>
      simp [hr, h4, ServeMux.Handle]

theorem registration_fst {H : Type} (a : App H) (c : Chain H) (e : String × H) :
    (a.registration c e).1 = e.1 := by
  unfold App.registration
  split <;> rfl

theorem filter_registration_of_not_mem {H : Type} (a : App H) (c : Chain H) (k : String)
    (l : List (String × H)) (h : k ∉ l.map Prod.fst) :
    (l.map (a.registration c)).filter (fun e => e.1 = k) = [] := by
  rw [List.filter_eq_nil_iff]
  intro x hx
  obtain ⟨e, he, rfl⟩ := List.mem_map.mp hx
  rw [registration_fst]
  intro hk
  have hk2 : e.1 = k := by simpa using hk
  exact h (List.mem_map.mpr ⟨e, he, hk2⟩)

theorem find_root_of_not_mem {H : Type} (l : List (String × H))
    (h : "/" ∉ l.map Prod.fst) : l.find? (fun e => e.1 = "/") = none := by
  rw [List.find?_eq_none]
  intro x hx hp
  have hp2 : x.1 = "/" := by simpa using hp
  exact h (List.mem_map.mpr ⟨x, hx, hp2⟩)

theorem filter_root_registration {H : Type} (a : App H) (c : Chain H) :
    ∀ (l : List (String × H)), (l.map Prod.fst).Nodup →
      (l.map (a.registration c)).filter (fun e => e.1 = "/")
        = match l.find? (fun e => e.1 = "/") with
          | some e => [a.registration c e]
          | none => [] := by
  intro l
  induction l with
  | nil => intro _; rfl
  | cons e rest ih =>
    intro hnd
    rw [List.map_cons, List.nodup_cons] at hnd
    obtain ⟨hnot, hrest⟩ := hnd
    by_cases he : e.1 = "/"
    · have hnot2 : "/" ∉ rest.map Prod.fst := by rw [← he]; exact hnot
      have h1 := filter_registration_of_not_mem a c "/" rest hnot2
      simp [List.filter_cons, registration_fst, he, h1]
    · have h2 := ih hrest
      simp only [List.map_cons, List.filter_cons, registration_fst, he, decide_False,
        List.find?_cons]
      simpa using h2

theorem pick_only_match {H : Type} (path : String) (e0 : String × Wrapped H) :
    ∀ (l : ServeMux H), (∀ e ∈ l, pathMatch e.1 path = true → e = e0) →
      ∀ best : Option (String × Wrapped H), (best = none ∨ best = some e0) →
        (l.foldl (ServeMux.pick path) best = none
            ∨ l.foldl (ServeMux.pick path) best = some e0)
        ∧ ((best = some e0 ∨ (e0 ∈ l ∧ pathMatch e0.1 path = true)) →
            l.foldl (ServeMux.pick path) best = some e0) := by
  intro l
  induction l with
  | nil =>
    intro _ best hb
    refine ⟨hb, ?_⟩
    rintro (h | ⟨h, _⟩)
    · exact h
    · cases h
  | cons e rest ih =>
    intro hall best hb
    have hrest : ∀ x ∈ rest, pathMatch x.1 path = true → x = e0 :=
      fun x hx => hall x (List.mem_cons_of_mem _ hx)
    rw [List.foldl_cons]
    by_cases hm : pathMatch e.1 path = true
    · have he : e = e0 := hall e (List.mem_cons_self _ _) hm
      have hstep : ServeMux.pick path best e = some e0 := by
        subst he
        rcases hb with hb | hb
        · simp [ServeMux.pick, hm, hb]
        · simp [ServeMux.pick, hm, hb]
      rw [hstep]
      have h := ih hrest (some e0) (Or.inr rfl)
      exact ⟨h.1, fun _ => h.2 (Or.inl rfl)⟩
    · have hstep : ServeMux.pick path best e = best := by
        simp [ServeMux.pick, hm]
      rw [hstep]
      have h := ih hrest best hb
      refine ⟨h.1, ?_⟩
      rintro (hbest | ⟨hmem, hmatch⟩)
      · exact h.2 (Or.inl hbest)
      · rcases List.mem_cons.mp hmem with heq | hin
        · subst heq
          exact absurd hmatch hm
        · exact h.2 (Or.inr ⟨hin, hmatch⟩)

theorem middleware_no_notFound {H : Type} (a : App H) (h : Option H) :
    Stage.notFoundMiddleware h ∉ a.middleware := by
  simp [App.middleware, Chain.Append]

/-- C10: when `Routes` contains the key "/static/", `App.Handler` stops with the panic
"reserved path: /static/" and returns no mux, for every list of other routes and every
position of the key in the iteration order; when `Routes` does not contain it, `App.Handler`
returns a mux in which "/static/" is registered exactly once, for the static-asset handler
behind the middleware chain. -/
theorem reserved_path_check {H : Type} (a : App H) :
    ("/static/" ∈ a.Routes.map Prod.fst →
        a.Handler = Except.error "reserved path: /static/")
    ∧ ("/static/" ∉ a.Routes.map Prod.fst →
        ∃ mux, a.Handler = Except.ok mux
          ∧ mux.filter (fun e => e.1 = "/static/")
              = [("/static/", a.middleware.Then Endpoint.staticHandler)]) := by
  refine ⟨?_, ?_⟩
  · intro h
    rw [Handler_eq, if_pos h]
  · intro h
    rw [Handler_eq, if_neg h]
    refine ⟨_, rfl, ?_⟩
    have h1 := filter_registration_of_not_mem a a.middleware "/static/" a.Routes h
    have hne : ¬ (("/" : String) = "/static/") := by decide
    by_cases hr : "/" ∉ a.Routes.map Prod.fst ∧ a.Handler404.isSome = true
    · rw [if_pos hr]
      simp [List.filter_cons, h1, hne]
    · rw [if_neg hr]
      simp [List.filter_cons, h1]

theorem mux_of_routes {H : Type} (a : App H) (h : "/static/" ∉ a.Routes.map Prod.fst) :
    a.Handler = Except.ok
      (("/static/", a.middleware.Then Endpoint.staticHandler)
        :: a.Routes.map (a.registration a.middleware)
        ++ (if "/" ∉ a.Routes.map Prod.fst ∧ a.Handler404.isSome then
              [("/", (a.middleware.Append [Stage.notFoundMiddleware a.Handler404]).Then
                  Endpoint.NotFoundHandler)]
            else [])) := by
  rw [Handler_eq, if_neg h]

theorem root_filter_with_404 {H : Type} (a : App H)
    (hmap : (a.Routes.map Prod.fst).Nodup) (h4 : a.Handler404.isSome = true) :
    (("/static/", a.middleware.Then Endpoint.staticHandler)
        :: a.Routes.map (a.registration a.middleware)
        ++ (if "/" ∉ a.Routes.map Prod.fst ∧ a.Handler404.isSome then
              [("/", (a.middleware.Append [Stage.notFoundMiddleware a.Handler404]).Then
                  Endpoint.NotFoundHandler)]
            else [])).filter (fun e => e.1 = "/")
      = [("/", (a.middleware.Append [Stage.notFoundMiddleware a.Handler404]).Then
            a.rootEndpoint)] := by
  have hne : ¬ (("/static/" : String) = "/") := by decide
  have hf := filter_root_registration a a.middleware a.Routes hmap
  rw [List.cons_append, List.filter_cons]
  simp only [hne, decide_False, Bool.false_eq_true, if_false, List.filter_append, hf]
  by_cases hr : "/" ∈ a.Routes.map Prod.fst
  · have hnr : ¬ ("/" ∉ a.Routes.map Prod.fst ∧ a.Handler404.isSome = true) :=
      fun h => h.1 hr
    rw [if_neg hnr]
    obtain ⟨e, he, he1⟩ := List.mem_map.mp hr
    cases hfind : a.Routes.find? (fun e => e.1 = "/") with
    | none =>
      rw [List.find?_eq_none] at hfind
      exact absurd (by simpa using he1) (hfind e he)
    | some x =>
      have hx : x.1 = "/" := by simpa using List.find?_some hfind
      simp [App.rootEndpoint, hfind, App.registration, hx, h4]
  · have hfind := find_root_of_not_mem a.Routes hr
    rw [if_pos ⟨hr, h4⟩]
    simp [App.rootEndpoint, hfind]

theorem Handler_perm {H : Type} (a b : App H) (hp : b.Routes.Perm a.Routes)
    (h4 : b.Handler404 = a.Handler404) (hs : b.Security = a.Security)
    (hres : "/static/" ∉ a.Routes.map Prod.fst) :
    ∃ mux mux2, a.Handler = Except.ok mux ∧ b.Handler = Except.ok mux2 ∧ mux2.Perm mux := by
  obtain ⟨rb, b4, bs⟩ := b
  simp only at hp h4 hs
  subst h4
  subst hs
  have hkeys : (rb.map Prod.fst).Perm (a.Routes.map Prod.fst) := hp.map _
  have hresb : "/static/" ∉ rb.map Prod.fst := fun h => hres (hkeys.mem_iff.mp h)
  refine ⟨_, _, mux_of_routes a hres, mux_of_routes _ hresb, ?_⟩
  have hroot : ("/" ∉ rb.map Prod.fst) ↔ ("/" ∉ a.Routes.map Prod.fst) :=
    not_congr hkeys.mem_iff
  refine List.Perm.cons _ (List.Perm.append (hp.map _) ?_)
  by_cases hr : "/" ∉ a.Routes.map Prod.fst
  · have hrb := hroot.mpr hr
    simp only [hr, hrb, not_false_eq_true, true_and]
    exact List.Perm.refl _
  · have hrb : ¬ ("/" ∉ rb.map Prod.fst) := fun h => hr (hroot.mp h)
    simp only [hr, hrb, false_and, if_false]
    exact List.Perm.refl _

/-! ## Dispatch to the root registration and the not-found stage -/

theorem root_path_nonempty (path : String) (hroot : pathMatch "/" path = true) :
    path.data.length ≠ 0 := by
  intro hp
  have hp2 : path.data = [] := List.length_eq_zero.mp hp
  have hpe : path = "" := String.ext hp2
  rw [hpe] at hroot
  revert hroot
  decide

theorem shouldRedirect_eq_false {H : Type} (mux : ServeMux H) (host path : String)
    (hroot : pathMatch "/" path = true)
    (hcl : ∀ e ∈ mux, e.1 ≠ "/" → patternClaims e.1 host path = false) :
    mux.shouldRedirect host path = false := by
  have hne := root_path_nonempty path hroot
  have hlen1 : ("/" : String).data.length = 1 := by decide
  have key : ∀ p : String, (p = path ++ "/" ∨ p = host ++ path ++ "/") →
      mux.registered p = false := by
    intro p hp
    cases hreg : mux.registered p with
    | false => rfl
    | true =>
      exfalso
      obtain ⟨e, he, hep⟩ := List.any_eq_true.mp hreg
      have hep2 : e.1 = p := by simpa using hep
      by_cases h0 : e.1 = "/"
      · have hp0 : ("/" : String) = p := h0.symm.trans hep2
        rcases hp with hp | hp
        · have hl := congrArg (fun s : String => s.data.length) (hp0.trans hp)
          simp only [String.data_append, List.length_append, hlen1] at hl
          omega
        · have hl := congrArg (fun s : String => s.data.length) (hp0.trans hp)
          simp only [String.data_append, List.length_append, hlen1] at hl
          omega
      · have hc := hcl e he h0
        rcases hp with hp | hp
        · have : patternClaims e.1 host path = true := by
            simp [patternClaims, hep2, hp]
          rw [hc] at this
          cases this
        · have : patternClaims e.1 host path = true := by
            simp [patternClaims, hep2, hp]
          rw [hc] at this
          cases this
  unfold ServeMux.shouldRedirect
  rw [key (path ++ "/") (Or.inl rfl), key (host ++ path ++ "/") (Or.inr rfl)]
  simp

theorem handler_only_match {H : Type} (mux : ServeMux H) (e0 : String × Wrapped H)
    (host path : String) (he0 : e0 ∈ mux) (hm : pathMatch e0.1 path = true)
    (h1 : ∀ e ∈ mux, pathMatch e.1 path = true → e = e0)
    (h2 : ∀ e ∈ mux, pathMatch e.1 (host ++ path) = true → e = e0) :
    mux.handler host path = some e0 := by
  have hp : mux.matchPath path = some e0 :=
    (pick_only_match path e0 mux h1 none (Or.inl rfl)).2 (Or.inr ⟨he0, hm⟩)
  have hh : mux.matchPath (host ++ path) = none ∨ mux.matchPath (host ++ path) = some e0 :=
    (pick_only_match (host ++ path) e0 mux h2 none (Or.inl rfl)).1
  unfold ServeMux.handler
  by_cases hosts : mux.hosts = true
  · rw [if_pos hosts]
    rcases hh with hh | hh
    · rw [hh]
      exact hp
    · rw [hh]
  · rw [if_neg hosts]
    exact hp

theorem Handler_only_root {H : Type} (mux : ServeMux H) (e0 : String × Wrapped H)
    (cleanPath : String → String) (host urlPath : String)
    (hf : mux.filter (fun e => e.1 = "/") = [e0])
    (hclean : cleanPath urlPath = urlPath) (hroot : pathMatch "/" urlPath = true)
    (hcl : ∀ e ∈ mux, e.1 ≠ "/" → patternClaims e.1 host urlPath = false) :
    mux.Handler cleanPath host urlPath = Dispatch.handler e0 := by
  have hin : e0 ∈ mux.filter (fun e => e.1 = "/") := by
    rw [hf]
    exact List.mem_singleton.mpr rfl
  have he0 : e0 ∈ mux := (List.mem_filter.mp hin).1
  have he1 : e0.1 = "/" := by simpa using (List.mem_filter.mp hin).2
  have huniq : ∀ e ∈ mux, e.1 = "/" → e = e0 := by
    intro e he h0
    have : e ∈ mux.filter (fun e => e.1 = "/") :=
      List.mem_filter.mpr ⟨he, by simpa using h0⟩
    rw [hf] at this
    exact List.mem_singleton.mp this
  have h1 : ∀ e ∈ mux, pathMatch e.1 urlPath = true → e = e0 := by
    intro e he hm
    by_cases h0 : e.1 = "/"
    · exact huniq e he h0
    · have hc := hcl e he h0
      simp [patternClaims, hm] at hc
  have h2 : ∀ e ∈ mux, pathMatch e.1 (host ++ urlPath) = true → e = e0 := by
    intro e he hm
    by_cases h0 : e.1 = "/"
    · exact huniq e he h0
    · have hc := hcl e he h0
      simp [patternClaims, hm] at hc
  have hm0 : pathMatch e0.1 urlPath = true := by rw [he1]; exact hroot
  unfold ServeMux.Handler
  simp only [hclean, shouldRedirect_eq_false mux host urlPath hroot hcl,
    handler_only_match mux e0 host urlPath he0 hm0 h1 h2]
  simp

theorem notFoundMiddleware_NotFoundHandler (h : HandlerFunc) (w : ResponseWriter)
    (r : Request) : notFoundMiddleware h http.NotFoundHandler w r = h w r := by
  simp [notFoundMiddleware, reportsNotFound, http.NotFoundHandler, http.Error, statusOf,
    http.StatusNotFound]

theorem Wrapped_ServeHTTP_notFound {H : Type} (hs : Handlers H) (c : Chain H)
    (h : Option H) (final : Endpoint H) :
    Wrapped.ServeHTTP hs ((c.Append [Stage.notFoundMiddleware h]).Then final)
      = Chain.wrap hs c (notFoundMiddleware (hs.ServeHTTP h) (Endpoint.ServeHTTP hs final)) := by
  simp [Wrapped.ServeHTTP, Chain.Then, Chain.Append, Chain.wrap, List.foldr_append, Stage.wrap]

theorem find_of_mem_nodup {H : Type} (k : String) :
    ∀ (l : List (String × H)), (l.map Prod.fst).Nodup → ∀ h : H, (k, h) ∈ l →
      l.find? (fun e => e.1 = k) = some (k, h) := by
  intro l
  induction l with
  | nil => intro _ h hm; cases hm
  | cons e rest ih =>
    intro hnd h hm
    rw [List.map_cons, List.nodup_cons] at hnd
    rcases List.mem_cons.mp hm with heq | hin
    · subst heq
      simp [List.find?_cons]
    · have hne : e.1 ≠ k := by
        intro hek
        exact hnd.1 (hek ▸ List.mem_map.mpr ⟨(k, h), hin, rfl⟩)
      simp only [List.find?_cons, hne, decide_False]
      exact ih hnd.2 h hin

theorem rootEndpoint_of_route {H : Type} (a : App H) (hmap : (a.Routes.map Prod.fst).Nodup)
    (h : H) (hm : ("/", h) ∈ a.Routes) : a.rootEndpoint = Endpoint.route h := by
  simp [App.rootEndpoint, find_of_mem_nodup "/" a.Routes hmap h hm]

theorem rootEndpoint_of_no_route {H : Type} (a : App H) (hr : "/" ∉ a.Routes.map Prod.fst) :
    a.rootEndpoint = Endpoint.NotFoundHandler := by
  simp [App.rootEndpoint, find_root_of_not_mem a.Routes hr]

theorem Handler_ok_no_reserved {H : Type} (a : App H) (mux : ServeMux H) (h : a.Handler = Except.ok mux) :
    "/static/" ∉ a.Routes.map Prod.fst := by
  intro hs
  rw [Handler_eq, if_pos hs] at h
  cases h

/-- C9 (as stated, refuted): an App with a non-nil `Handler404` whose only route is the
reserved path; `App.Handler` panics in the loop, so no handler is registered at "/" and no
mux is returned. -/
theorem root_wrapping_counterexample :
    App.Handler ({ Routes := [("/static/", 1)], Handler404 := some 0, Security := none } : App Nat)
      = Except.error "reserved path: /static/" := by
  rfl

/-- C9 (amended): for every App whose `Routes` (a Go map, so its keys are distinct) does not
contain "/static/" and whose `Handler404` is non-nil, `App.Handler` registers exactly one
handler at "/", and it is behind the not-found stage built from `Handler404`: the
application's own "/" route when `Routes` contains "/", the default not-found handler
otherwise. So a request to a sub-path under "/" that matches no registered route (no other
registered pattern lays claim to it) is dispatched to that registration and reaches the custom
404 handler, not the default one: the not-found stage serves `Handler404` in place of every
"not found" reply of the handler behind it, which is every reply when that handler is the
default one. When `Handler404` is nil, no registration has a not-found stage and "/" is
registered iff `Routes` contains it. The result does not depend on the iteration order:
another order gives the same panic or the same registrations up to their order. -/
theorem root_not_found_wrapping {H : Type} (a : App H) (hs : Handlers H)
    (hmap : (a.Routes.map Prod.fst).Nodup) :
    (a.Handler404.isSome = true → "/static/" ∉ a.Routes.map Prod.fst →
      ∃ mux, a.Handler = Except.ok mux
        ∧ mux.filter (fun e => e.1 = "/")
            = [("/", (a.middleware.Append [Stage.notFoundMiddleware a.Handler404]).Then
                  a.rootEndpoint)]
        ∧ (∀ h : H, ("/", h) ∈ a.Routes → a.rootEndpoint = Endpoint.route h)
        ∧ ("/" ∉ a.Routes.map Prod.fst → a.rootEndpoint = Endpoint.NotFoundHandler)
        ∧ (∀ (cleanPath : String → String) (host urlPath : String),
            cleanPath urlPath = urlPath → pathMatch "/" urlPath = true →
            (∀ e ∈ mux, e.1 ≠ "/" → patternClaims e.1 host urlPath = false) →
            mux.Handler cleanPath host urlPath
              = Dispatch.handler
                  ("/", (a.middleware.Append [Stage.notFoundMiddleware a.Handler404]).Then
                    a.rootEndpoint))
        ∧ Wrapped.ServeHTTP hs
              ((a.middleware.Append [Stage.notFoundMiddleware a.Handler404]).Then a.rootEndpoint)
            = Chain.wrap hs a.middleware
                (notFoundMiddleware (hs.ServeHTTP a.Handler404)
                  (Endpoint.ServeHTTP hs a.rootEndpoint))
        ∧ (∀ (w : ResponseWriter) (r : Request),
            reportsNotFound w (Endpoint.ServeHTTP hs a.rootEndpoint w r).1 = true →
            notFoundMiddleware (hs.ServeHTTP a.Handler404)
                (Endpoint.ServeHTTP hs a.rootEndpoint) w r
              = hs.ServeHTTP a.Handler404 w r)
        ∧ ("/" ∉ a.Routes.map Prod.fst → ∀ (w : ResponseWriter) (r : Request),
            notFoundMiddleware (hs.ServeHTTP a.Handler404)
                (Endpoint.ServeHTTP hs a.rootEndpoint) w r
              = hs.ServeHTTP a.Handler404 w r))
    ∧ (a.Handler404 = none → ∀ mux, a.Handler = Except.ok mux →
        (∀ e ∈ mux, ∀ h : Option H, Stage.notFoundMiddleware h ∉ e.2.stages)
        ∧ ("/" ∈ mux.map Prod.fst ↔ "/" ∈ a.Routes.map Prod.fst))
    ∧ (∀ b : App H, b.Routes.Perm a.Routes → b.Handler404 = a.Handler404 →
        b.Security = a.Security →
        (∀ e, a.Handler = Except.error e → b.Handler = Except.error e)
        ∧ (∀ mux, a.Handler = Except.ok mux →
            ∃ mux2, b.Handler = Except.ok mux2 ∧ mux2.Perm mux)) := by
  refine ⟨?_, ?_, ?_⟩
  · intro h4 hres
    have hf := root_filter_with_404 a hmap h4
    refine ⟨_, mux_of_routes a hres, hf, rootEndpoint_of_route a hmap,
      rootEndpoint_of_no_route a, ?_, Wrapped_ServeHTTP_notFound hs _ _ _, ?_, ?_⟩
    · intro cleanPath host urlPath hclean hroot hcl
      exact Handler_only_root _ _ cleanPath host urlPath hf hclean hroot hcl
    · intro w r hnf
      simp [notFoundMiddleware, hnf]
    · intro hr w r
      rw [rootEndpoint_of_no_route a hr]
      exact notFoundMiddleware_NotFoundHandler _ w r
  · intro h4 mux hmux
    have hres := Handler_ok_no_reserved a mux hmux
    rw [mux_of_routes a hres] at hmux
    cases hmux
    have hsome : a.Handler404.isSome = false := by rw [h4]; rfl
    have hreg : ∀ x : String × H, a.registration a.middleware x
        = (x.1, a.middleware.Then (Endpoint.route x.2)) := by
      intro x
      simp [App.registration, hsome]
    simp only [hsome, Bool.false_eq_true, and_false, if_false, List.append_nil]
    refine ⟨?_, ?_⟩
    · intro e he h
      rcases List.mem_cons.mp he with he | he
      · rw [he]
        exact middleware_no_notFound a h
      · obtain ⟨x, _, rfl⟩ := List.mem_map.mp he
        rw [hreg]
        exact middleware_no_notFound a h
    · have hne : ¬ (("/" : String) = "/static/") := by decide
      simp [hne, Function.comp_def, registration_fst]
  · intro b hp h4 hs2
    have hkeys : (b.Routes.map Prod.fst).Perm (a.Routes.map Prod.fst) := hp.map _
    refine ⟨?_, ?_⟩
    · intro e he
      by_cases hres : "/static/" ∈ a.Routes.map Prod.fst
      · rw [Handler_eq, if_pos hres] at he
        rw [Handler_eq, if_pos (hkeys.mem_iff.mpr hres)]
        exact he
      · rw [mux_of_routes a hres] at he
        cases he
    · intro mux hmux
      have hres := Handler_ok_no_reserved a mux hmux
      obtain ⟨m1, m2, hm1, hm2, hperm⟩ := Handler_perm a b hp h4 hs2 hres
      rw [hmux] at hm1
      cases hm1
      exact ⟨m2, hm2, hperm⟩

/-- One route "/items" and a 404 handler that answers with a bare 404 status line: the request
"/nope" is dispatched to the registration at "/", and serving it yields the security headers
followed by the reply of the custom handler, not the default "404 page not found". -/
theorem root_not_found_wrapping_witness :
    ∃ mux, itemsApp.Handler = Except.ok mux
      ∧ mux.Handler (fun p => p) "example.com" "/nope"
          = Dispatch.handler
              ("/", (itemsApp.middleware.Append [Stage.notFoundMiddleware (some 404)]).Then
                Endpoint.NotFoundHandler)
      ∧ (Wrapped.ServeHTTP exampleHandlers
            ((itemsApp.middleware.Append [Stage.notFoundMiddleware (some 404)]).Then
              Endpoint.NotFoundHandler) emptyWriter {}).1.calls
          = [Call.headerSet "X-Frame-Options" "DENY",
             Call.headerSet "X-Content-Type-Options" "nosniff",
             Call.headerSet "Content-Security-Policy" "default-src 'self'",
             Call.writeHeader 404] := by
  obtain ⟨mux, h1, _, _, h4, h5, _, _, _⟩ :=
    (root_not_found_wrapping itemsApp exampleHandlers (by decide)).1 rfl (by decide)
  have hmux : itemsApp.Handler = Except.ok
      [("/static/", itemsApp.middleware.Then Endpoint.staticHandler),
       ("/items", itemsApp.middleware.Then (Endpoint.route 2)),
       ("/", (itemsApp.middleware.Append [Stage.notFoundMiddleware (some 404)]).Then
          Endpoint.NotFoundHandler)] := rfl
  rw [hmux] at h1
  cases h1
  refine ⟨_, hmux, ?_, rfl⟩
  rw [h5 (fun p => p) "example.com" "/nope" rfl (by decide) (by decide), h4 (by decide)]
  rfl

end Esox
